import Mathlib

/-!
Shallow embedding of the hotel-recommendation pipeline in `src/main.py`
(data model, review deduplication, the two review-analysis strategies, the
scoring stage and the four LangGraph stage functions), together with proofs
settling the specification claims about it.

Numeric values that Python holds as floats are modelled as rationals (`ℚ`);
The Python `round(x, n)` builtin is modelled with the Mathlib `round` (which
differs from the round-half-to-even rule of Python only at exact midpoints; all concrete inputs used
below stay away from midpoints).  External collaborators (the listing server,
the per-hotel review server, the Gemini model, the report file sink) are
modelled as oracles supplied as arguments: each call either returns a value or
raises, which the oracle represents as `Except`.
-/

/-- A Python value that can occur inside an analysis dictionary: the five
analysis keys hold numbers, strings, lists of strings or string-to-number
maps; the model response may also carry nulls/booleans. -/
inductive PVal where
  | num (q : ℚ)
  | str (s : String)
  | strList (l : List String)
  | scoreMap (m : List (String × ℚ))
  | pbool (b : Bool)
  | pnull
deriving DecidableEq

/-- One review record (`src/main.py` passes review dicts around; the rating is
stored already coerced: `none` models a missing / falsy / unparseable rating,
matching the guarded float parse of `review.get("rating")` at lines 283-289). -/
structure Review where
  text : String := ""
  rating : Option ℚ := none
  source : Option String := none
  author : Option String := none
  date : Option String := none
deriving DecidableEq

/-- One hotel record from the listing payload (`src/main.py` lines 12-19 plus
the `detailed_reviews` and `price` keys added dynamically). -/
structure Hotel where
  name : String := ""
  source : Option String := none
  address : Option String := none
  rating : Option String := none
  price : Option String := none
  reviews : List Review := []
  detailed_reviews : Option (List Review) := none
deriving DecidableEq

/-- A scored hotel as built by `scorer_agent` (`src/main.py` lines 587-597).
`price`/`review_count` default for the sample hotel literal, which omits them. -/
structure ScoredHotel where
  name : String
  score : ℚ
  source : String
  address : String
  rating : String
  price : String := ""
  reviews : List Review
  review_count : Nat := 0
  llm_analysis : List (String × PVal)
deriving DecidableEq

/-- The `google_data` slot: either the queried payload (its hotels list) or the
error marker `{"error": str(e), "results": {"hotels": []}}` (line 491). -/
structure GoogleData where
  error : Option String := none
  hotels : List Hotel := []
deriving DecidableEq

/-- The `combined_hotels` slot `{"google": google_data}` (lines 647-649). -/
structure Combined where
  google : Option GoogleData := none
deriving DecidableEq

/-- The query context threaded through the stages (`HotelContext`, lines 21-29,
plus `booking_url` set by the entry point).  `none` models an absent key. -/
structure Context where
  location : Option String := none
  checkin : Option String := none
  checkout : Option String := none
  guests : Option Nat := none
  keywords : Option (List String) := none
  booking_url : Option String := none
  google_data : Option GoogleData := none
  combined_hotels : Option Combined := none
  top_hotels : Option (List ScoredHotel) := none
deriving DecidableEq

/-- Outcomes of the external collaborators for one pipeline run.  `.error`
models the call raising an exception. -/
structure Oracles where
  listing : Except String (List Hotel)
  fetchReviews : String → Except String (List Review)
  gemini : String → Except String (List (String × PVal))
  sink : Except String Unit

/-! ### String helpers (Python `in`, `.lower()`) -/

/-- Does the character list start with `needle`? -/
def charsStartWith : List Char → List Char → Bool
  | [], _ => true
  | _ :: _, [] => false
  | a :: as, b :: bs => a == b && charsStartWith as bs

/-- Does `hay` contain `needle` as a contiguous run (Python `needle in hay`)? -/
def charsContain (needle : List Char) : List Char → Bool
  | [] => needle.isEmpty
  | c :: rest => charsStartWith needle (c :: rest) || charsContain needle rest

/-- Python `needle in hay` on strings. -/
def strContains (hay needle : String) : Bool :=
  charsContain needle.toList hay.toList

/-- Python `keyword.lower() in review_text.lower()` (lines 55, 277, 337). -/
def mentionsKw (kw text : String) : Bool :=
  strContains text.toLower kw.toLower

/-- Python `any(w in text for w in words)` over an already-lowercased text. -/
def hasAnyWord (words : List String) (textLower : String) : Bool :=
  words.any (fun w => strContains textLower w)

/-! ### Rounding (Python `round(x, 1)` / `round(x, 2)`) -/

/-- Round to one decimal place. -/
def round1 (q : ℚ) : ℚ := ((round (q * 10) : ℤ) : ℚ) / 10

/-- Round to two decimal places. -/
def round2 (q : ℚ) : ℚ := ((round (q * 100) : ℤ) : ℚ) / 100

/-! ### The local heuristic analysis strategy (lines 256-398) -/

/-- Fixed positive lexicon (lines 300, 329). -/
def positiveWords : List String :=
  ["good", "great", "excellent", "amazing", "love", "best", "perfect",
   "wonderful", "fantastic", "awesome"]

/-- Fixed negative lexicon (lines 301, 330). -/
def negativeWords : List String :=
  ["bad", "poor", "terrible", "awful", "worst", "horrible", "disappointing",
   "disappointed", "not good", "not great"]

/-- The ratings that parse as floats, in review order (lines 282-289). -/
def parsedRatings (rs : List Review) : List ℚ := rs.filterMap (fun r => r.rating)

/-- `avg_rating = sum(ratings) / len(ratings) if ratings else 0.0` (line 292). -/
def avgRating (rs : List Review) : ℚ :=
  if (parsedRatings rs).isEmpty then 0
  else (parsedRatings rs).sum / ((parsedRatings rs).length : ℚ)

/-- Number of reviews containing at least one positive-lexicon word (303-309). -/
def posCount (rs : List Review) : Nat :=
  rs.countP (fun r => hasAnyWord positiveWords r.text.toLower)

/-- Number of reviews containing at least one negative-lexicon word (303-311). -/
def negCount (rs : List Review) : Nat :=
  rs.countP (fun r => hasAnyWord negativeWords r.text.toLower)

/-- The sentiment-based overall estimate used when no rating is positive
(lines 299-320). -/
def sentimentOverall (rs : List Review) : ℚ :=
  if 0 < rs.length then
    (((posCount rs : ℚ) / (rs.length : ℚ) -
      (negCount rs : ℚ) / (rs.length : ℚ) + 1) / 2) * 10
  else 5

/-- The raw (pre-rounding) overall score of the local strategy (lines 291-320):
average rating projected to 0-10 when positive, sentiment estimate otherwise. -/
def rawOverall (rs : List Review) : ℚ :=
  if 0 < avgRating rs then (avgRating rs / 5) * 10 else sentimentOverall rs

/-- `keyword_mentions`: keywords with a positive mention count (lines 275-279). -/
def keywordMentions (kws : List String) (rs : List Review) : List (String × Nat) :=
  (kws.map (fun k => (k, rs.countP (fun r => mentionsKw k r.text)))).filter
    (fun p => 0 < p.2)

/-- Per-aspect raw score (lines 322-351): positive-context ratio scaled to 10
when any clear sentiment co-occurs, else `5.0 + mention_ratio * 2.0`.  The
elif in the source makes a review count as negative only when it has no
positive-lexicon word. -/
def aspectScoreFor (rs : List Review) (k : String) (count : Nat) : ℚ :=
  let mentionRatio : ℚ := (count : ℚ) / (rs.length : ℚ)
  let pm := rs.countP
    (fun r => mentionsKw k r.text && hasAnyWord positiveWords r.text.toLower)
  let nm := rs.countP
    (fun r => mentionsKw k r.text && !(hasAnyWord positiveWords r.text.toLower)
      && hasAnyWord negativeWords r.text.toLower)
  if 0 < pm + nm then ((pm : ℚ) / ((pm : ℚ) + (nm : ℚ))) * 10
  else 5 + mentionRatio * 2

/-- `aspect_scores` from the mentioned keywords, each rounded to one decimal
(line 352). -/
def aspectScoresKw (rs : List Review) (kws : List String) : List (String × ℚ) :=
  (keywordMentions kws rs).map (fun p => (p.1, round1 (aspectScoreFor rs p.1 p.2)))

/-- Final `aspect_scores`: if no keyword matched, the three synthesized default
aspects of lines 354-360 (computed from the raw overall score). -/
def aspectScoresFinal (rs : List Review) (kws : List String) : List (String × ℚ) :=
  let a := aspectScoresKw rs kws
  if a.isEmpty && !rs.isEmpty then
    [("overall experience", round1 (rawOverall rs)),
     ("value", round1 (max 3 (min (rawOverall rs - 1) 10))),
     ("location", round1 (max 3 (min (rawOverall rs + 0.5) 10)))]
  else a

/-- The `" (mentioned in N reviews)"` suffix of line 367. -/
def mentionText (km : List (String × Nat)) (aspect : String) : String :=
  match km.lookup aspect with
  | some c => " (mentioned in " ++ toString c ++ " reviews)"
  | none => ""

/-- Strength statements: aspects scoring at least 7.0 (lines 366-370). -/
def strengthsOf (km : List (String × Nat)) (a : List (String × ℚ)) : List String :=
  (a.filter (fun p => 7 ≤ p.2)).map
    (fun p => "Good " ++ p.1.toLower ++ mentionText km p.1)

/-- Weakness statements: aspects scoring at most 4.0 (lines 366-372). -/
def weaknessesOf (km : List (String × Nat)) (a : List (String × ℚ)) : List String :=
  (a.filter (fun p => !(7 ≤ p.2) && p.2 ≤ 4)).map
    (fun p => "Needs improvement in " ++ p.1.toLower ++ mentionText km p.1)

/-- Python `max(aspect_scores.items(), key=lambda x: x[1])`: the first entry
with the maximal score (line 376). -/
def maxBySnd : List (String × ℚ) → (String × ℚ)
  | [] => ("", 0)
  | [p] => p
  | p :: q :: rest => let m := maxBySnd (q :: rest); if m.2 ≤ p.2 then p else m

/-- Final strengths: at least one strength whenever aspect scores exist
(lines 374-377). -/
def strengthsFinal (km : List (String × Nat)) (a : List (String × ℚ)) : List String :=
  let s := strengthsOf km a
  if s.isEmpty && !a.isEmpty then
    ["Relatively good " ++ (maxBySnd a).1.toLower ++ " compared to other aspects"]
  else s

/-- Render a one-decimal score the way the summary f-strings do (the argument
is always a value already rounded to one decimal). -/
def fmt1 (q : ℚ) : String :=
  let n : Int := round (q * 10)
  let sign := if n < 0 then "-" else ""
  sign ++ toString (n.natAbs / 10) ++ "." ++ toString (n.natAbs % 10)

/-- The composed summary of lines 379-389. -/
def summaryOf (name : String) (rs : List Review) (overallRounded : ℚ)
    (strengths weaknesses : List String) : String :=
  let n := rs.length
  let base :=
    if 5 ≤ n then
      "Based on " ++ toString n ++ " reviews, " ++ name ++
        " has an overall score of " ++ fmt1 overallRounded ++ "/10.0. "
    else
      "Based on limited data (" ++ toString n ++ " reviews), " ++ name ++
        " has an estimated score of " ++ fmt1 overallRounded ++ "/10.0. "
  let base :=
    if strengths.isEmpty then base
    else base ++ "Positive aspects: " ++ String.intercalate ", " strengths ++ ". "
  if weaknesses.isEmpty then base
  else base ++ "Areas for improvement: " ++ String.intercalate ", " weaknesses ++ "."

/-- The structured result every local analysis produces (the five keys the
source initializes at lines 261-267 and fills at lines 391-396). -/
structure LocalAnalysis where
  overall_score : ℚ
  aspect_scores : List (String × ℚ)
  summary : String
  strengths : List String
  weaknesses : List String
deriving DecidableEq

/-- `analyze_reviews_with_local_method` (lines 256-398). -/
def analyze_reviews_with_local_method (name : String) (rs : List Review)
    (kws : List String) : LocalAnalysis :=
  if rs.isEmpty then
    { overall_score := 0, aspect_scores := [],
      summary := "No reviews available for " ++ name ++ ".",
      strengths := [], weaknesses := [] }
  else
    let km := keywordMentions kws rs
    let a := aspectScoresFinal rs kws
    let st := strengthsFinal km a
    let wk := weaknessesOf km a
    { overall_score := round1 (rawOverall rs), aspect_scores := a,
      summary := summaryOf name rs (round1 (rawOverall rs)) st wk,
      strengths := st, weaknesses := wk }

/-- The local analysis as the Python dict it is returned as. -/
def LocalAnalysis.toPairs (r : LocalAnalysis) : List (String × PVal) :=
  [("overall_score", .num r.overall_score),
   ("aspect_scores", .scoreMap r.aspect_scores),
   ("summary", .str r.summary),
   ("strengths", .strList r.strengths),
   ("weaknesses", .strList r.weaknesses)]

/-! ### The structured-model strategy (lines 188-253) -/

/-- The five required analysis keys (line 245). -/
def requiredKeys : List String :=
  ["overall_score", "aspect_scores", "summary", "strengths", "weaknesses"]

/-- The typed default backfilled for a missing key (lines 248-250). -/
def defaultFor (k : String) : PVal :=
  if k == "strengths" || k == "weaknesses" then .strList []
  else if k == "aspect_scores" then .scoreMap []
  else if k == "summary" then .str "No data"
  else .num 5

/-- One iteration of the key-validation loop (lines 246-250): a key already
present is left untouched, a missing key is appended with its default. -/
def backfillStep (acc : List (String × PVal)) (k : String) : List (String × PVal) :=
  if (acc.lookup k).isSome then acc else acc ++ [(k, defaultFor k)]

/-- The post-parse validation of `analyze_reviews_with_gemini` (lines 244-253),
applied to the JSON object parsed from the model response.  Prompt assembly,
transport and JSON parsing live in the oracle: a transport failure, non-JSON
payload or non-object payload is the `.error` case of the oracle (it raises
inside the enclosing `try`). -/
def analyze_reviews_with_gemini (parsed : List (String × PVal)) :
    List (String × PVal) :=
  requiredKeys.foldl backfillStep parsed

/-- The fixed record returned when no reviews are available (lines 163-171). -/
def noReviewsRecord : List (String × PVal) :=
  [("overall_score", .num 0),
   ("aspect_scores", .scoreMap []),
   ("summary", .str "No reviews available for analysis."),
   ("strengths", .strList []),
   ("weaknesses", .strList [])]

/-- `analyze_hotel_reviews` (lines 150-185).  The returned boolean records
whether the model strategy was invoked (the `try` of lines 179-185); a raised
model failure (`model = .error`) falls back to the local strategy. -/
def analyze_hotel_reviews (name : String) (rs : List Review) (kws : List String)
    (model : Except String (List (String × PVal))) :
    List (String × PVal) × Bool :=
  if rs.isEmpty then (noReviewsRecord, false)
  else if rs.length < 2 then
    ((analyze_reviews_with_local_method name rs kws).toPairs, false)
  else
    match model with
    | .ok parsed => (analyze_reviews_with_gemini parsed, true)
    | .error _ => ((analyze_reviews_with_local_method name rs kws).toPairs, true)

/-! ### Review deduplication and acquisition-time merging (lines 463-473) -/

/-- The dedup loop of lines 466-472: keep a review iff its text is non-empty
(`if text`) and not seen before, tracking seen texts. -/
def dedupGo (seen : List String) : List Review → List Review
  | [] => []
  | r :: rest =>
    if !(r.text == "") && !(seen.contains r.text) then
      r :: dedupGo (r.text :: seen) rest
    else dedupGo seen rest

/-- Deduplicate a review sequence by text content, first occurrence kept. -/
def dedupReviews (l : List Review) : List Review := dedupGo [] l

private theorem dedupGo_cons (seen : List String) (r : Review) (rest : List Review) :
    dedupGo seen (r :: rest) =
      if !(r.text == "") && !(seen.contains r.text) then
        r :: dedupGo (r.text :: seen) rest
      else dedupGo seen rest := rfl

/-- The per-hotel enrichment of the acquisition loop (lines 460-473): when the
separately fetched detailed reviews are non-empty, store them under
`detailed_reviews` and overwrite `reviews` with the deduplicated concatenation
`hotel.reviews + fetched` (inline reviews first); otherwise leave the hotel
unchanged. -/
def processHotel (fetched : List Review) (hotel : Hotel) : Hotel :=
  if fetched.isEmpty then hotel
  else
    { hotel with detailed_reviews := some fetched,
                 reviews := dedupReviews (hotel.reviews ++ fetched) }

/-- `fetch_hotel_reviews` (lines 107-147): its own `try` converts any raised
failure into an empty review list. -/
def fetch_hotel_reviews (oracle : String → Except String (List Review))
    (hotelName : String) : List Review :=
  match oracle hotelName with
  | .ok l => l
  | .error _ => []

/-! ### The pipeline stages (lines 402-671) -/

/-- The safeguard block appended to every stage (e.g. lines 414-418): if none
of the eight recognized context keys is present, set `location = "Unknown"`. -/
def safeguard (ctx : Context) : Context :=
  if ctx.location.isSome || ctx.checkin.isSome || ctx.checkout.isSome ||
     ctx.guests.isSome || ctx.keywords.isSome || ctx.google_data.isSome ||
     ctx.combined_hotels.isSome || ctx.top_hotels.isSome
  then ctx else { ctx with location := some "Unknown" }

/-- `orchestrator` (lines 402-418): copy the context (`dict(context)`), fill
defaults for the five query fields without overwriting supplied values. -/
def orchestrator (ctx : Context) : Context :=
  safeguard
    { ctx with
      location := some (ctx.location.getD "New York"),
      checkin := some (ctx.checkin.getD "2025-05-01"),
      checkout := some (ctx.checkout.getD "2025-05-03"),
      guests := some (ctx.guests.getD 2),
      keywords := some (ctx.keywords.getD
        ["breakfast", "clean", "service", "location", "value"]) }

/-- `google_hotel_agent` (lines 421-497).  The listing call is the only
operation inside the `try` that can raise in this model (`fetch_hotel_reviews`
catches internally); on a raise the stage stores the error marker instead.  On
success it stores the payload, enriches the first five named hotels with
fetched detailed reviews, and re-stores the payload with the enriched hotel
list whenever that list is non-empty (lines 477-480). -/
def google_hotel_agent (o : Oracles) (ctx : Context) : Context :=
  safeguard
    (match o.listing with
     | .error e => { ctx with google_data := some { error := some e, hotels := [] } }
     | .ok hotels =>
       let ctx1 := { ctx with google_data := some { hotels := hotels } }
       let hwr := ((hotels.take 5).filter (fun h => !(h.name == ""))).map
         (fun h => processHotel (fetch_hotel_reviews o.fetchReviews h.name) h)
       if hwr.isEmpty then ctx1
       else { ctx1 with google_data := some { hotels := hwr } })

/-- `combiner_agent` (lines 640-671): wrap the google payload under the
`combined_hotels` key.  Its `try` body performs no fallible call in this
model, so the error branch of line 665 is unreachable. -/
def combiner_agent (ctx : Context) : Context :=
  safeguard { ctx with combined_hotels := some { google := ctx.google_data } }

/-! ### The scoring stage (lines 499-637) -/

/-- The review list the scorer passes to the analysis engine for one hotel
(lines 567-572): detailed reviews when present and non-empty, else the
`reviews` field of the hotel. -/
def chosenReviews (hotel : Hotel) : List Review :=
  if (hotel.detailed_reviews.getD []).isEmpty then hotel.reviews
  else hotel.detailed_reviews.getD []

/-- The value under `overall_score`, with the `.get` default 0.0 the scorer
supplies (line 583). -/
def analysisOverall (a : List (String × PVal)) : PVal :=
  (a.lookup "overall_score").getD (.num 0)

/-- `final_score = round(overall_score / 2, 1)` (line 584). -/
def finalScore (overall : ℚ) : ℚ := round1 (overall / 2)

/-- The per-hotel body of the scoring loop (lines 563-610): skip hotels whose
chosen review list is empty, otherwise analyze the reviews and build the
scored record.  A non-numeric `overall_score` in the analysis dict makes
`overall_score / 2` raise a `TypeError`, modelled as `.error`. -/
def scoreHotel (kws : List String)
    (model : String → Except String (List (String × PVal))) (hotel : Hotel) :
    Except String (Option ScoredHotel) :=
  if (chosenReviews hotel).isEmpty then .ok none
  else
    match analysisOverall ((analyze_hotel_reviews hotel.name
      (chosenReviews hotel) kws (model hotel.name)).1) with
    | .num q =>
      .ok (some
        { name := hotel.name, score := finalScore q,
          source := hotel.source.getD "unknown",
          address := hotel.address.getD "", rating := hotel.rating.getD "",
          price := hotel.price.getD "", reviews := chosenReviews hotel,
          review_count := (chosenReviews hotel).length,
          llm_analysis := (analyze_hotel_reviews hotel.name
            (chosenReviews hotel) kws (model hotel.name)).1 })
    | _ => .error "TypeError: unsupported operand type for /"

/-- The scoring loop over all hotels (lines 561-610): a raised failure aborts
the loop and propagates to the stage boundary. -/
def scoreHotels (kws : List String)
    (model : String → Except String (List (String × PVal))) :
    List Hotel → Except String (List ScoredHotel)
  | [] => .ok []
  | h :: rest =>
    match scoreHotel kws model h with
    | .error e => .error e
    | .ok s =>
      match scoreHotels kws model rest with
      | .error e => .error e
      | .ok tail => .ok (match s with | some sh => sh :: tail | none => tail)

/-- Stable descending insertion by score (Python `sort(key=..., reverse=True)`
at line 613 is stable; equal scores keep their relative order). -/
def insertDesc (s : ScoredHotel) : List ScoredHotel → List ScoredHotel
  | [] => [s]
  | t :: rest => if t.score < s.score then s :: t :: rest else t :: insertDesc s rest

/-- Sort scored hotels by score, highest first, stably (line 613). -/
def sortDesc : List ScoredHotel → List ScoredHotel
  | [] => []
  | s :: rest => insertDesc s (sortDesc rest)

/-- The synthetic sample hotel of lines 527-557. -/
def sampleHotel (location : String) : ScoredHotel :=
  { name := "Sample Hotel 1", score := 4.5, source := "sample",
    address := "123 Main St, " ++ location, rating := "4.5",
    reviews := [{ text := "Great hotel with excellent service and amenities.",
                  rating := some 4.5, date := some "April 2025",
                  author := some "Sample Reviewer", source := some "sample_data" }],
    llm_analysis :=
      [("overall_score", .num 8.5),
       ("aspect_scores", .scoreMap
         [("breakfast", 8), ("clean", 9), ("service", 9.5),
          ("location", 8), ("value", 8)]),
       ("summary", .str "This is a sample hotel with excellent service and amenities."),
       ("strengths", .strList ["Excellent service", "Clean rooms", "Good breakfast"]),
       ("weaknesses", .strList [])] }

/-- The fallback re-fetch of lines 508-523: when the context holds no hotel
data, query the listing source again inside a nested `try` (a raise leaves the
data empty), storing the fresh payload when it has hotels. -/
def scorerFallback (o : Oracles) (ctx : Context) : List Hotel × Context :=
  let hotels := (ctx.google_data.map GoogleData.hotels).getD []
  if hotels.isEmpty then
    match o.listing with
    | .ok hs => (hs, if hs.isEmpty then ctx else { ctx with google_data := some { hotels := hs } })
    | .error _ => ([], ctx)
  else (hotels, ctx)

/-- The `try` body of `scorer_agent` (lines 501-625).  An `.error` result
carries the context as mutated so far, since the Python handler overwrites
`top_hotels` on that same dict. -/
def scorerBody (o : Oracles) (ctx : Context) : Except (String × Context) Context :=
  if (scorerFallback o ctx).1.isEmpty then
    .ok { (scorerFallback o ctx).2 with
          top_hotels := some [sampleHotel (ctx.location.getD "New York")] }
  else
    match scoreHotels (ctx.keywords.getD []) o.gemini (scorerFallback o ctx).1 with
    | .error e => .error (e, (scorerFallback o ctx).2)
    | .ok scored =>
      match o.sink with
      | .ok _ =>
        .ok { (scorerFallback o ctx).2 with top_hotels := some (sortDesc scored) }
      | .error e =>
        .error (e, { (scorerFallback o ctx).2 with
                     top_hotels := some (sortDesc scored) })

/-- `scorer_agent` (lines 499-637): any failure raised inside the body is
caught at the stage boundary and replaced by an empty `top_hotels` list
(line 631). -/
def scorer_agent (o : Oracles) (ctx : Context) : Context :=
  safeguard
    (match scorerBody o ctx with
     | .ok c => c
     | .error ec => { ec.2 with top_hotels := some [] })

/-- The full fixed pipeline `orchestrator → google_hotel_agent →
combiner_agent → scorer_agent` (lines 675-686). -/
def runPipeline (o : Oracles) (ctx : Context) : Context :=
  scorer_agent o (combiner_agent (google_hotel_agent o (orchestrator ctx)))

/-! ### Aliasing model of the stages

In CPython each stage receives a reference to the context dict of the caller.
`orchestrator` rebinds its local name to a copy (`context = dict(context)`,
line 405) before writing, so the dict of the caller is untouched; the other
three stages assign into the received dict itself (line 436 for instance) and
return it, so after the call the dict of the caller holds the stage output.
Each `...E` function returns the pair of the return value and the state of
the passed-in record after the call. -/

/-- `orchestrator` paired with the state of the passed-in record after the
call (copied at line 405, so unchanged). -/
def orchestratorE (ctx : Context) : Context × Context :=
  (orchestrator ctx, ctx)

/-- `google_hotel_agent` paired with the state of the passed-in record after
the call (written in place). -/
def google_hotel_agentE (o : Oracles) (ctx : Context) : Context × Context :=
  (google_hotel_agent o ctx, google_hotel_agent o ctx)

/-- `combiner_agent` paired with the state of the passed-in record after the
call (written in place). -/
def combiner_agentE (ctx : Context) : Context × Context :=
  (combiner_agent ctx, combiner_agent ctx)

/-- `scorer_agent` paired with the state of the passed-in record after the
call (written in place). -/
def scorer_agentE (o : Oracles) (ctx : Context) : Context × Context :=
  (scorer_agent o ctx, scorer_agent o ctx)

/-! ### Predicates used by the claims -/

/-- Is `q` a score in the 0-10 range? -/
def scoreInRange (q : ℚ) : Bool := decide (0 ≤ q) && decide (q ≤ 10)

/-- The completeness property of §8 of the spec: the five analysis keys are
present, correctly typed, with the overall and aspect scores in-range numbers. -/
def wellTypedAnalysis (a : List (String × PVal)) : Bool :=
  (match a.lookup "overall_score" with
   | some (.num q) => scoreInRange q
   | _ => false) &&
  (match a.lookup "aspect_scores" with
   | some (.scoreMap m) => m.all (fun p => scoreInRange p.2)
   | _ => false) &&
  (match a.lookup "summary" with | some (.str _) => true | _ => false) &&
  (match a.lookup "strengths" with | some (.strList _) => true | _ => false) &&
  (match a.lookup "weaknesses" with | some (.strList _) => true | _ => false)

/-- Constructor-level typing of the five analysis keys (no range condition). -/
def typedShapeAnalysis (a : List (String × PVal)) : Bool :=
  (match a.lookup "overall_score" with | some (.num _) => true | _ => false) &&
  (match a.lookup "aspect_scores" with | some (.scoreMap _) => true | _ => false) &&
  (match a.lookup "summary" with | some (.str _) => true | _ => false) &&
  (match a.lookup "strengths" with | some (.strList _) => true | _ => false) &&
  (match a.lookup "weaknesses" with | some (.strList _) => true | _ => false)

/-- The final-score formula exactly as the specification words it (§4.4 / C1):
weighted combination when the projected analysis score is positive, the coerced
base rating alone otherwise, rounded to two decimals. -/
def spec_final (baseRating overall : ℚ) : ℚ :=
  if 0 < overall / 2 then round2 (0.4 * baseRating + 0.6 * (overall / 2))
  else round2 baseRating

/-- A model-call outcome whose parsed object, if any, carries a numeric value
under `overall_score` whenever it carries one at all. -/
def OracleNumOk (r : Except String (List (String × PVal))) : Prop :=
  ∀ obj, r = .ok obj → ∀ v, obj.lookup "overall_score" = some v → ∃ q, v = .num q

/-! ### Helper lemmas: the backfill loop -/

private theorem backfillStep_lookup_some (acc : List (String × PVal))
    (j k : String) {v : PVal} (h : acc.lookup k = some v) :
    (backfillStep acc j).lookup k = some v := by
  unfold backfillStep
  split
  · exact h
  · rw [List.lookup_append, h]
    rfl

private theorem foldl_backfill_lookup_some (ks : List String)
    (acc : List (String × PVal)) (k : String) {v : PVal}
    (h : acc.lookup k = some v) :
    (ks.foldl backfillStep acc).lookup k = some v := by
  induction ks generalizing acc with
  | nil => exact h
  | cons j rest ih => exact ih _ (backfillStep_lookup_some acc j k h)

private theorem backfillStep_self_isSome (acc : List (String × PVal))
    (k : String) : ((backfillStep acc k).lookup k).isSome := by
  unfold backfillStep
  split
  · assumption
  · rename_i hnone
    rw [List.lookup_append]
    cases hl : acc.lookup k with
    | some v => rw [hl] at hnone; simp at hnone
    | none => simp

private theorem foldl_backfill_mem_isSome (ks : List String)
    (acc : List (String × PVal)) (k : String) (hk : k ∈ ks) :
    ((ks.foldl backfillStep acc).lookup k).isSome := by
  induction ks generalizing acc with
  | nil => cases hk
  | cons j rest ih =>
    rw [List.foldl_cons]
    rcases List.mem_cons.mp hk with h | h
    · subst h
      rcases Option.isSome_iff_exists.mp (backfillStep_self_isSome acc k) with ⟨v, hv⟩
      rw [foldl_backfill_lookup_some rest _ k hv]
      rfl
    · exact ih _ h

private theorem gemini_lookup_overall (a : List (String × PVal)) :
    (analyze_reviews_with_gemini a).lookup "overall_score" =
      some ((a.lookup "overall_score").getD (.num 5)) := by
  unfold analyze_reviews_with_gemini requiredKeys
  rw [List.foldl_cons]
  cases h : a.lookup "overall_score" with
  | some v =>
    have h1 : backfillStep a "overall_score" = a := by
      simp [backfillStep, h]
    rw [h1, foldl_backfill_lookup_some _ _ _ h]
    rfl
  | none =>
    have h1 : backfillStep a "overall_score" =
        a ++ [("overall_score", defaultFor "overall_score")] := by
      simp [backfillStep, h]
    have h2 : (a ++ [("overall_score", defaultFor "overall_score")]).lookup
        "overall_score" = some (defaultFor "overall_score") := by
      rw [List.lookup_append, h]
      rfl
    rw [h1, foldl_backfill_lookup_some _ _ _ h2]
    rfl

private theorem analysisOverall_toPairs (r : LocalAnalysis) :
    analysisOverall r.toPairs = .num r.overall_score := rfl

private theorem analysisOverall_noReviews : analysisOverall noReviewsRecord = .num 0 := rfl

private theorem analyze_overall_num (name : String) (rs : List Review)
    (kws : List String) (model : Except String (List (String × PVal)))
    (h : OracleNumOk model) :
    ∃ q, analysisOverall ((analyze_hotel_reviews name rs kws model).1) = .num q := by
  unfold analyze_hotel_reviews
  split
  · exact ⟨0, analysisOverall_noReviews⟩
  · split
    · exact ⟨_, analysisOverall_toPairs _⟩
    · cases hm : model with
      | error e => exact ⟨_, analysisOverall_toPairs _⟩
      | ok parsed =>
        unfold analysisOverall
        rw [gemini_lookup_overall]
        cases hl : parsed.lookup "overall_score" with
        | none => exact ⟨5, rfl⟩
        | some v =>
          rcases h parsed hm v hl with ⟨q, hq⟩
          exact ⟨q, by rw [hq]; rfl⟩

/-! ### Helper lemmas: deduplication -/

private theorem dedupGo_idem : ∀ (l : List Review) (seen : List String),
    dedupGo seen (dedupGo seen l) = dedupGo seen l := by
  intro l
  induction l with
  | nil => intro seen; rfl
  | cons r rest ih =>
    intro seen
    by_cases h : (!(r.text == "") && !(seen.contains r.text)) = true
    · rw [dedupGo_cons, if_pos h, dedupGo_cons, if_pos h, ih]
    · rw [dedupGo_cons, if_neg h, ih]

private theorem dedupGo_all_nonempty : ∀ (l : List Review) (seen : List String),
    (dedupGo seen l).all (fun r => !(r.text == "")) = true := by
  intro l
  induction l with
  | nil => intro seen; rfl
  | cons r rest ih =>
    intro seen
    by_cases h : (!(r.text == "") && !(seen.contains r.text)) = true
    · rw [dedupGo_cons, if_pos h, List.all_cons,
        (Bool.and_eq_true _ _).mp h |>.1, ih]
      rfl
    · rw [dedupGo_cons, if_neg h]
      exact ih _

private theorem dedupGo_find? (t : String) (ht : (t == "") = false) :
    ∀ (l : List Review) (seen : List String), seen.contains t = false →
      (dedupGo seen l).find? (fun r => r.text == t) =
        l.find? (fun r => r.text == t) := by
  intro l
  induction l with
  | nil => intro seen hs; rfl
  | cons r rest ih =>
    intro seen hs
    by_cases hrt : (r.text == t) = true
    · have hteq : r.text = t := eq_of_beq hrt
      have hcond : (!(r.text == "") && !(seen.contains r.text)) = true := by
        rw [hteq, ht, hs]
        rfl
      have hrt2 : ((fun r : Review => r.text == t) r) = true := hrt
      rw [dedupGo_cons, if_pos hcond,
        List.find?_cons_of_pos (p := fun r : Review => r.text == t) _ hrt2,
        List.find?_cons_of_pos (p := fun r : Review => r.text == t) _ hrt2]
    · have hrt2 : ¬ ((fun r : Review => r.text == t) r = true) := by
        simpa using hrt
      by_cases hcond : (!(r.text == "") && !(seen.contains r.text)) = true
      · rw [dedupGo_cons, if_pos hcond,
          List.find?_cons_of_neg (p := fun r : Review => r.text == t) _ hrt2,
          List.find?_cons_of_neg (p := fun r : Review => r.text == t) _ hrt2]
        apply ih
        rw [List.contains_cons, hs]
        have : (t == r.text) = false := by
          have hne : r.text ≠ t := by simpa using hrt
          simpa using fun hEq => hne hEq.symm
        rw [this]
        rfl
      · rw [dedupGo_cons, if_neg hcond,
          List.find?_cons_of_neg (p := fun r : Review => r.text == t) _ hrt2]
        exact ih seen hs

/-! ### Helper lemmas: rounding and bounds -/

private theorem round_le_round {a b : ℚ} (h : a ≤ b) : round a ≤ round b := by
  rw [round_eq, round_eq]
  exact Int.floor_le_floor (by linarith)

private theorem round1_nonneg {q : ℚ} (h : 0 ≤ q) : 0 ≤ round1 q := by
  have h1 : (0:ℤ) ≤ round (q * 10) := by
    have h2 := round_le_round (by linarith : (0:ℚ) ≤ q * 10)
    rwa [round_zero] at h2
  have h3 : (0:ℚ) ≤ ((round (q * 10) : ℤ) : ℚ) := by exact_mod_cast h1
  unfold round1
  exact div_nonneg h3 (by norm_num)

private theorem round1_le_nat {q : ℚ} {n : ℕ} (h : q ≤ (n : ℚ)) :
    round1 q ≤ (n : ℚ) := by
  have h1 : round (q * 10) ≤ ((n * 10 : ℕ) : ℤ) := by
    have h2 : q * 10 ≤ (((n * 10 : ℕ) : ℤ) : ℚ) := by push_cast; linarith
    have h3 := round_le_round h2
    rwa [round_intCast] at h3
  unfold round1
  rw [div_le_iff₀ (by norm_num : (0:ℚ) < 10)]
  calc ((round (q * 10) : ℤ) : ℚ) ≤ (((n * 10 : ℕ) : ℤ) : ℚ) := by exact_mod_cast h1
    _ = (n : ℚ) * 10 := by push_cast; ring

private theorem avgRating_le_five (rs : List Review)
    (hb : ∀ r ∈ rs, ∀ q, r.rating = some q → 0 ≤ q ∧ q ≤ 5) :
    avgRating rs ≤ 5 := by
  unfold avgRating
  split
  · norm_num
  · rename_i hne
    have hmem : ∀ x ∈ parsedRatings rs, x ≤ (5:ℚ) := by
      intro x hx
      rcases List.mem_filterMap.mp hx with ⟨r, hr, hrx⟩
      exact (hb r hr x hrx).2
    have hsum : (parsedRatings rs).sum ≤ ((parsedRatings rs).length : ℚ) * 5 := by
      have h4 := List.sum_le_card_nsmul (parsedRatings rs) 5 hmem
      simpa [nsmul_eq_mul] using h4
    have hlen : 0 < ((parsedRatings rs).length : ℚ) := by
      have h5 : parsedRatings rs ≠ [] := by
        simpa [List.isEmpty_iff] using hne
      have h6 : 0 < (parsedRatings rs).length := List.length_pos.mpr h5
      exact_mod_cast h6
    rw [div_le_iff₀ hlen]
    linarith

private theorem sentiment_bounds (rs : List Review) :
    0 ≤ sentimentOverall rs ∧ sentimentOverall rs ≤ 10 := by
  unfold sentimentOverall
  split
  · rename_i hlen
    have hl : 0 < (rs.length : ℚ) := by exact_mod_cast hlen
    have hp0 : (0:ℚ) ≤ (posCount rs : ℚ) / (rs.length : ℚ) :=
      div_nonneg (by positivity) hl.le
    have hn0 : (0:ℚ) ≤ (negCount rs : ℚ) / (rs.length : ℚ) :=
      div_nonneg (by positivity) hl.le
    have hp1 : (posCount rs : ℚ) / (rs.length : ℚ) ≤ 1 := by
      rw [div_le_one hl]
      have := List.countP_le_length
        (p := fun r : Review => hasAnyWord positiveWords r.text.toLower) (l := rs)
      exact_mod_cast this
    have hn1 : (negCount rs : ℚ) / (rs.length : ℚ) ≤ 1 := by
      rw [div_le_one hl]
      have := List.countP_le_length
        (p := fun r : Review => hasAnyWord negativeWords r.text.toLower) (l := rs)
      exact_mod_cast this
    constructor <;> [skip; skip] <;> linarith
  · norm_num

private theorem rawOverall_bounds (rs : List Review)
    (hb : ∀ r ∈ rs, ∀ q, r.rating = some q → 0 ≤ q ∧ q ≤ 5) :
    0 ≤ rawOverall rs ∧ rawOverall rs ≤ 10 := by
  unfold rawOverall
  split
  · rename_i havg
    have h5 := avgRating_le_five rs hb
    have heq : avgRating rs / 5 * 10 = 2 * avgRating rs := by ring
    rw [heq]
    constructor <;> linarith
  · exact sentiment_bounds rs

private theorem finalScore_bounds {x : ℚ} (h0 : 0 ≤ x) (h10 : x ≤ 10) :
    0 ≤ finalScore x ∧ finalScore x ≤ 5 := by
  unfold finalScore
  constructor
  · exact round1_nonneg (by linarith)
  · have h1 := round1_le_nat (n := 5) (q := x / 2) (by push_cast; linarith)
    simpa using h1

/-! ### Concrete fixtures -/

/-- The score slot of the `scoreHotel` result. -/
def scoredScore (kws : List String)
    (model : String → Except String (List (String × PVal))) (hotel : Hotel) :
    Except String (Option ℚ) :=
  (scoreHotel kws model hotel).map (fun s => s.map (fun t => t.score))

/-- A model oracle whose every call raises (service unavailable). -/
def oracleDown : String → Except String (List (String × PVal)) :=
  fun _ => .error "model unavailable"

/-- A hotel with provider star rating `"3.0"` and two inline reviews rated 4,
so the local analysis gives overall score 8.0. -/
def hotelC1 : Hotel :=
  { name := "Grand Plaza", rating := some "3.0",
    reviews := [{ text := "nothing to complain about", rating := some 4 },
                { text := "spacious rooms", rating := some 4 }] }

/-- A provider-inline review. -/
def inlineReview : Review := { text := "lovely stay", source := some "google_inline" }

/-- A separately fetched detailed review with the same text. -/
def detailedReview : Review :=
  { text := "lovely stay", rating := some 5, source := some "google_travel" }

/-! ### Claim theorems -/

/-- C9: the review deduplication is idempotent: applying `dedupe` to its own
output returns that output unchanged, for every review sequence. -/
theorem c9_dedup_idempotent (x : List Review) :
    dedupReviews (dedupReviews x) = dedupReviews x :=
  dedupGo_idem x []

/-- C5 counterexample: the dedup step does not retain empty-text reviews; on
an input of two (distinguishable) empty-text reviews the output is empty, so
neither occurrence is retained, contradicting the claim that every empty-text
occurrence is retained independently. -/
theorem c5_counterexample :
    dedupReviews [{ text := "", source := some "a" },
                  { text := "", source := some "b" }] = [] := by
  decide

/-- C5 (amended): the dedup step never merges two empty-text reviews because
it drops every empty-text review outright: the output contains only reviews
with non-empty text. -/
theorem c5_amended_empty_dropped (x : List Review) :
    (dedupReviews x).all (fun r => !(r.text == "")) = true :=
  dedupGo_all_nonempty x []

/-- C4 counterexample: the acquisition merge concatenates the provider-inline
reviews *before* the fetched detailed reviews (`hotel.get("reviews", []) +
reviews`, line 464), so on a text collision the inline instance is kept and
the detailed instance is dropped — the reverse of the claimed order. -/
theorem c4_counterexample :
    (processHotel [detailedReview] { name := "H", reviews := [inlineReview] }).reviews
      = [inlineReview] ∧
    ¬ detailedReview ∈
      (processHotel [detailedReview] { name := "H", reviews := [inlineReview] }).reviews := by
  decide

/-- C4 (amended): when the fetched detailed set is non-empty the merged list
is the dedup of inline-reviews-then-detailed-reviews, so for every non-empty
review text already present in the inline set, the *inline* (fallback)
instance is the one kept by dedup. -/
theorem c4_amended_inline_wins (h : Hotel) (d : List Review) (t : String)
    (hd : d.isEmpty = false) (ht : (t == "") = false)
    (hin : ((h.reviews).find? (fun r => r.text == t)).isSome = true) :
    (processHotel d h).reviews = dedupReviews (h.reviews ++ d) ∧
    (processHotel d h).reviews.find? (fun r => r.text == t) =
      h.reviews.find? (fun r => r.text == t) := by
  have hrev : (processHotel d h).reviews = dedupReviews (h.reviews ++ d) := by
    unfold processHotel
    simp only [hd, Bool.false_eq_true, if_false]
  refine ⟨hrev, ?_⟩
  rw [hrev]
  unfold dedupReviews
  rw [dedupGo_find? t ht _ [] rfl, List.find?_append]
  rcases Option.isSome_iff_exists.mp hin with ⟨r, hr⟩
  rw [hr]
  rfl

/-- C4 witness: the amended statement at a concrete hotel and fetch result. -/
theorem c4_witness :
    (processHotel [detailedReview] { name := "H", reviews := [inlineReview] }).reviews
      = dedupReviews ([inlineReview] ++ [detailedReview]) ∧
    (processHotel [detailedReview]
        { name := "H", reviews := [inlineReview] }).reviews.find?
        (fun r => r.text == "lovely stay") =
      [inlineReview].find? (fun r => r.text == "lovely stay") :=
  c4_amended_inline_wins { name := "H", reviews := [inlineReview] }
    [detailedReview] "lovely stay" (by decide) (by decide) (by decide)

/-- C7: with an empty review list, `analyze` returns exactly the fixed
zero-review record and never invokes the model strategy; with exactly one
review it returns the local heuristic result and never invokes the model
strategy (the boolean records a model invocation). -/
theorem c7_fallback_correctness :
    (∀ (name : String) (kws : List String)
        (model : Except String (List (String × PVal))),
        analyze_hotel_reviews name [] kws model =
          ([("overall_score", .num 0), ("aspect_scores", .scoreMap []),
            ("summary", .str "No reviews available for analysis."),
            ("strengths", .strList []), ("weaknesses", .strList [])], false)) ∧
    (∀ (name : String) (r : Review) (kws : List String)
        (model : Except String (List (String × PVal))),
        analyze_hotel_reviews name [r] kws model =
          ((analyze_reviews_with_local_method name [r] kws).toPairs, false)) :=
  ⟨fun _ _ _ => rfl, fun _ _ _ _ => rfl⟩

/-- C8 counterexample: a successfully parsed model response carrying a
mistyped `overall_score` (a string) is passed through by the key-backfill
loop, so the returned record is not correctly typed — only *missing* keys are
repaired. -/
theorem c8_counterexample :
    typedShapeAnalysis ((analyze_hotel_reviews "H"
      [{ text := "fine" }, { text := "nice" }] []
      (.ok [("overall_score", .str "excellent")])).1) = false ∧
    wellTypedAnalysis ((analyze_hotel_reviews "H"
      [{ text := "fine" }, { text := "nice" }] []
      (.ok [("overall_score", .str "excellent")])).1) = false := by
  decide

/-- C8 (amended): every analysis record produced by `analyze` carries all five
required keys (missing keys are backfilled with typed defaults), and the
zero-review record and every local-strategy record are correctly
constructor-typed; values present in a parsed model response, however, pass
through unvalidated. -/
theorem c8_amended_keys_present :
    (∀ (name : String) (rs : List Review) (kws : List String)
        (model : Except String (List (String × PVal))),
        requiredKeys.all
          (fun k =>
            (((analyze_hotel_reviews name rs kws model).1).lookup k).isSome)
          = true) ∧
    (∀ (name : String) (rs : List Review) (kws : List String),
        typedShapeAnalysis
          (analyze_reviews_with_local_method name rs kws).toPairs = true) ∧
    typedShapeAnalysis noReviewsRecord = true := by
  refine ⟨?_, fun _ _ _ => rfl, rfl⟩
  intro name rs kws model
  unfold analyze_hotel_reviews
  split
  · rfl
  · split
    · rfl
    · cases model with
      | error e => rfl
      | ok parsed =>
        rw [List.all_eq_true]
        intro k hk
        simpa [analyze_reviews_with_gemini] using
          foldl_backfill_mem_isSome requiredKeys parsed k hk

/-- C6 counterexample: the Consolidation stage writes into the incoming
context record (no copy is made, unlike the Orchestrator), so after the call
the passed-in record differs from what was passed in. -/
theorem c6_counterexample : (combiner_agentE { }).2 ≠ ({ } : Context) := by
  decide

/-- C6 (amended): only the Orchestrator copies the incoming context before
writing (its input record is unchanged after the stage returns); the
Acquisition, Consolidation and Scoring stages write into the incoming record
in place, so after they return the passed-in record equals the stage output
rather than the original input. -/
theorem c6_amended_mutation :
    (∀ ctx : Context, (orchestratorE ctx).2 = ctx) ∧
    (∀ (o : Oracles) (ctx : Context),
        (google_hotel_agentE o ctx).2 = (google_hotel_agentE o ctx).1) ∧
    (∀ ctx : Context, (combiner_agentE ctx).2 = (combiner_agentE ctx).1) ∧
    (∀ (o : Oracles) (ctx : Context),
        (scorer_agentE o ctx).2 = (scorer_agentE o ctx).1) :=
  ⟨fun _ => rfl, fun _ _ => rfl, fun _ => rfl, fun _ _ => rfl⟩

/-! ### Helper lemmas for the pipeline claims -/

private theorem safeguard_google_data (c : Context) :
    (safeguard c).google_data = c.google_data := by
  unfold safeguard
  split <;> rfl

private theorem safeguard_combined (c : Context) :
    (safeguard c).combined_hotels = c.combined_hotels := by
  unfold safeguard
  split <;> rfl

private theorem safeguard_top (c : Context) :
    (safeguard c).top_hotels = c.top_hotels := by
  unfold safeguard
  split <;> rfl

private theorem scorerBody_ok_top (o : Oracles) (ctx : Context) (c : Context)
    (h : scorerBody o ctx = .ok c) : c.top_hotels.isSome = true := by
  unfold scorerBody at h
  by_cases hE : (scorerFallback o ctx).1.isEmpty = true
  · rw [if_pos hE] at h
    cases h
    rfl
  · rw [if_neg hE] at h
    cases hS : scoreHotels (ctx.keywords.getD []) o.gemini (scorerFallback o ctx).1 with
    | error e =>
      rw [hS] at h
      cases h
    | ok scored =>
      rw [hS] at h
      cases hK : o.sink with
      | ok u =>
        rw [hK] at h
        cases h
        rfl
      | error e =>
        rw [hK] at h
        cases h

private theorem scorer_top_isSome (o : Oracles) (ctx : Context) :
    ((scorer_agent o ctx).top_hotels).isSome = true := by
  unfold scorer_agent
  cases hB : scorerBody o ctx with
  | ok c =>
    rw [safeguard_top]
    exact scorerBody_ok_top o ctx c hB
  | error ec =>
    rw [safeguard_top]
    rfl

private theorem google_data_isSome (o : Oracles) (ctx : Context) :
    ((google_hotel_agent o ctx).google_data).isSome = true := by
  unfold google_hotel_agent
  cases hL : o.listing with
  | error e => rw [safeguard_google_data]; rfl
  | ok hotels =>
    rw [safeguard_google_data]
    dsimp only
    split <;> rfl

/-- C3: each stage converts internal failures into error markers instead of
raising, for every oracle behavior: the Acquisition stage always leaves a
`google_data` slot (payload or error marker), the Consolidation stage always
leaves a `combined_hotels` slot, the Scoring stage always leaves a
`top_hotels` slot, and the whole pipeline therefore always terminates with the
`top_hotels` result slot populated. -/
theorem c3_pipeline_never_fails (o : Oracles) (ctx : Context) :
    ((google_hotel_agent o ctx).google_data).isSome = true ∧
    ((combiner_agent ctx).combined_hotels).isSome = true ∧
    ((scorer_agent o ctx).top_hotels).isSome = true ∧
    ((runPipeline o ctx).top_hotels).isSome = true := by
  refine ⟨google_data_isSome o ctx, ?_, scorer_top_isSome o ctx, ?_⟩
  · rw [combiner_agent, safeguard_combined]
    rfl
  · exact scorer_top_isSome o _

/-! ### C2: score bounds -/

private theorem c2_raw_forty :
    rawOverall [{ text := "an ok stay", rating := some 20 }] = 40 := by
  have h1 : parsedRatings [{ text := "an ok stay", rating := some 20 }] = [20] := rfl
  have h2 : avgRating [{ text := "an ok stay", rating := some 20 }] = 20 := by
    unfold avgRating
    rw [h1, if_neg (by decide : ¬ (([20] : List ℚ).isEmpty = true))]
    norm_num [List.sum_cons, List.sum_nil]
  unfold rawOverall
  rw [h2, if_pos (by norm_num : (0:ℚ) < 20)]
  norm_num

/-- C2 counterexample: the local strategy does not clamp ratings to the
assumed 0-5 scale: a single review rated 20 yields an analysis overall score
of `(20 / 5) * 10 = 40.0 > 10.0`, and the final score computed from it is
`round(40 / 2, 1) = 20.0 > 5.0`. -/
theorem c2_counterexample :
    (analyze_reviews_with_local_method "Hotel X"
        [{ text := "an ok stay", rating := some 20 }] []).overall_score = 40 ∧
    ¬ ((analyze_reviews_with_local_method "Hotel X"
        [{ text := "an ok stay", rating := some 20 }] []).overall_score ≤ 10) ∧
    finalScore 40 = 20 ∧ ¬ ((20:ℚ) ≤ 5) := by
  have hov : (analyze_reviews_with_local_method "Hotel X"
      [{ text := "an ok stay", rating := some 20 }] []).overall_score = 40 := by
    have h1 : (analyze_reviews_with_local_method "Hotel X"
        [{ text := "an ok stay", rating := some 20 }] []).overall_score =
        round1 (rawOverall [{ text := "an ok stay", rating := some 20 }]) := by
      unfold analyze_reviews_with_local_method
      rw [if_neg (by decide :
        ¬ (([{ text := "an ok stay", rating := some 20 }] : List Review).isEmpty = true))]
    rw [h1, c2_raw_forty]
    unfold round1
    rw [show ((40:ℚ) * 10) = 400 by norm_num, round_ofNat]
    norm_num
  have hfs : finalScore (40:ℚ) = 20 := by
    unfold finalScore round1
    rw [show ((40:ℚ) / 2 * 10) = 200 by norm_num, round_ofNat]
    norm_num
  exact ⟨hov, by rw [hov]; norm_num, hfs, by norm_num⟩

/-- C2 (amended): when the analysis comes from the local heuristic strategy
and every parsed review rating lies in the assumed 0-5 scale, the analysis
overall score lies in [0, 10] and the final score computed from it lies in
[0, 5].  (Out-of-scale ratings and model-strategy outputs are passed through
without clamping and can leave these ranges.) -/
theorem c2_amended_bounds (name : String) (rs : List Review) (kws : List String)
    (hb : ∀ r ∈ rs, ∀ q, r.rating = some q → 0 ≤ q ∧ q ≤ 5) :
    0 ≤ (analyze_reviews_with_local_method name rs kws).overall_score ∧
    (analyze_reviews_with_local_method name rs kws).overall_score ≤ 10 ∧
    0 ≤ finalScore ((analyze_reviews_with_local_method name rs kws).overall_score) ∧
    finalScore ((analyze_reviews_with_local_method name rs kws).overall_score) ≤ 5 := by
  have key : (analyze_reviews_with_local_method name rs kws).overall_score = 0 ∨
      (analyze_reviews_with_local_method name rs kws).overall_score =
        round1 (rawOverall rs) := by
    unfold analyze_reviews_with_local_method
    split
    · exact Or.inl rfl
    · exact Or.inr rfl
  have hb2 : 0 ≤ (analyze_reviews_with_local_method name rs kws).overall_score ∧
      (analyze_reviews_with_local_method name rs kws).overall_score ≤ 10 := by
    rcases key with hk | hk <;> rw [hk]
    · norm_num
    · obtain ⟨g0, g10⟩ := rawOverall_bounds rs hb
      refine ⟨round1_nonneg g0, ?_⟩
      have h10 := round1_le_nat (n := 10) (q := rawOverall rs) (by exact_mod_cast g10)
      simpa using h10
  obtain ⟨f0, f5⟩ := finalScore_bounds hb2.1 hb2.2
  exact ⟨hb2.1, hb2.2, f0, f5⟩

/-- C2 witness: the amended bounds at a concrete in-scale input. -/
theorem c2_witness :
    0 ≤ (analyze_reviews_with_local_method "Inn"
        [{ text := "great breakfast", rating := some 4 }] ["breakfast"]).overall_score ∧
    (analyze_reviews_with_local_method "Inn"
        [{ text := "great breakfast", rating := some 4 }] ["breakfast"]).overall_score ≤ 10 ∧
    0 ≤ finalScore ((analyze_reviews_with_local_method "Inn"
        [{ text := "great breakfast", rating := some 4 }] ["breakfast"]).overall_score) ∧
    finalScore ((analyze_reviews_with_local_method "Inn"
        [{ text := "great breakfast", rating := some 4 }] ["breakfast"]).overall_score) ≤ 5 :=
  c2_amended_bounds "Inn" [{ text := "great breakfast", rating := some 4 }] ["breakfast"]
    (by
      intro r hr q hq
      rw [List.mem_singleton] at hr
      subst hr
      have hq2 : some (4:ℚ) = some q := hq
      cases hq2
      norm_num)

/-! ### C1: the final-score formula -/

private theorem hotelC1_raw : rawOverall (chosenReviews hotelC1) = 8 := by
  have h1 : parsedRatings (chosenReviews hotelC1) = [4, 4] := rfl
  have h2 : avgRating (chosenReviews hotelC1) = 4 := by
    unfold avgRating
    rw [h1, if_neg (by decide : ¬ (([4, 4] : List ℚ).isEmpty = true))]
    norm_num [List.sum_cons, List.sum_nil]
  unfold rawOverall
  rw [h2, if_pos (by norm_num : (0:ℚ) < 4)]
  norm_num

private theorem hotelC1_overall :
    analysisOverall ((analyze_hotel_reviews hotelC1.name (chosenReviews hotelC1) []
      (oracleDown hotelC1.name)).1) = .num 8 := by
  have h1 : (analyze_hotel_reviews hotelC1.name (chosenReviews hotelC1) []
      (oracleDown hotelC1.name)).1 =
      (analyze_reviews_with_local_method hotelC1.name (chosenReviews hotelC1) []).toPairs :=
    rfl
  rw [h1, analysisOverall_toPairs]
  have h2 : (analyze_reviews_with_local_method hotelC1.name
      (chosenReviews hotelC1) []).overall_score =
      round1 (rawOverall (chosenReviews hotelC1)) := by
    unfold analyze_reviews_with_local_method
    rw [if_neg (by decide : ¬ ((chosenReviews hotelC1).isEmpty = true))]
  rw [h2, hotelC1_raw]
  have h3 : round1 (8:ℚ) = 8 := by
    unfold round1
    rw [show ((8:ℚ) * 10) = 80 by norm_num, round_ofNat]
    norm_num
  rw [h3]

private theorem finalScore_eight : finalScore 8 = 4 := by
  unfold finalScore round1
  rw [show ((8:ℚ) / 2 * 10) = 40 by norm_num, round_ofNat]
  norm_num

private theorem hotelC1_score : scoredScore [] oracleDown hotelC1 = .ok (some 4) := by
  unfold scoredScore scoreHotel
  rw [if_neg (by decide : ¬ ((chosenReviews hotelC1).isEmpty = true)), hotelC1_overall]
  show Except.ok (some (finalScore 8)) = Except.ok (some 4)
  rw [finalScore_eight]

/-- C1 counterexample: for `hotelC1` (provider star rating `"3.0"`, so a base
rating of 3.0 once coerced to float, and analysis overall score 8.0) the code
attaches `round(8.0 / 2, 1) = 4.0` as the final score, whereas the claimed
formula yields `round2(0.4 * 3.0 + 0.6 * (8.0 / 2.0)) = 3.6`: the base rating
never enters the computation and rounding is to one decimal place, not two. -/
theorem c1_counterexample :
    scoredScore [] oracleDown hotelC1 = .ok (some 4) ∧
    hotelC1.rating = some "3.0" ∧
    spec_final 3 8 = 18 / 5 ∧ ((4:ℚ) ≠ 18 / 5) := by
  refine ⟨hotelC1_score, rfl, ?_, by norm_num⟩
  unfold spec_final
  rw [if_pos (by norm_num : (0:ℚ) < 8 / 2)]
  unfold round2
  rw [show (((0.4 * 3 + 0.6 * (8 / 2)) : ℚ) * 100) = 360 by norm_num, round_ofNat]
  norm_num

/-- C1 (amended): for every hotel the Scoring stage processes (non-empty
chosen review list, numeric analysis overall score), the final score attached
to the scored hotel is exactly the analysis overall score divided by 2 and
rounded to one decimal place; the provider star rating plays no part in it. -/
theorem c1_amended_formula (kws : List String)
    (model : String → Except String (List (String × PVal))) (h : Hotel) (q : ℚ)
    (hne : (chosenReviews h).isEmpty = false)
    (hq : analysisOverall ((analyze_hotel_reviews h.name (chosenReviews h) kws
      (model h.name)).1) = .num q) :
    scoredScore kws model h = .ok (some (finalScore q)) := by
  unfold scoredScore scoreHotel
  rw [if_neg (by simp [hne]), hq]
  rfl

/-- C1 witness: the amended formula at a concrete hotel whose local analysis
gives overall score 8. -/
theorem c1_witness : scoredScore [] oracleDown hotelC1 = .ok (some (finalScore 8)) :=
  c1_amended_formula [] oracleDown hotelC1 8 (by decide) hotelC1_overall

/-! ### C10: which review list the scorer analyzes -/

private theorem processHotel_name (d : List Review) (h : Hotel) :
    (processHotel d h).name = h.name := by
  unfold processHotel
  split <;> rfl

/-- C10: for a hotel leaving the Acquisition loop, the review list the
Scoring stage passes to the analysis engine — and stores as the scored
review slot of the scored hotel with its `review_count` — is the fetched
detailed list when
that list is non-empty and the raw inline list of the hotel otherwise (never
merged deduplicated list the Acquisition merge stored), and a hotel whose
chosen list is empty is skipped, contributing nothing to the scored output. -/
theorem c10_scoring_review_selection (kws : List String)
    (model : String → Except String (List (String × PVal)))
    (h : Hotel) (d : List Review)
    (hd : h.detailed_reviews = none) (hnum : OracleNumOk (model h.name)) :
    chosenReviews (processHotel d h) = (if d.isEmpty then h.reviews else d) ∧
    ((if d.isEmpty then h.reviews else d) = [] →
      scoreHotel kws model (processHotel d h) = .ok none ∧
      scoreHotels kws model [processHotel d h] = .ok []) ∧
    ((if d.isEmpty then h.reviews else d) ≠ [] →
      ∃ s, scoreHotel kws model (processHotel d h) = .ok (some s) ∧
        s.reviews = (if d.isEmpty then h.reviews else d) ∧
        s.review_count = (if d.isEmpty then h.reviews else d).length ∧
        s.llm_analysis = (analyze_hotel_reviews h.name
          (if d.isEmpty then h.reviews else d) kws (model h.name)).1) := by
  by_cases hdE : d.isEmpty = true
  · have hP : processHotel d h = h := by
      unfold processHotel
      rw [if_pos hdE]
    have hch : chosenReviews h = h.reviews := by
      unfold chosenReviews
      rw [hd]
      rfl
    rw [hP, if_pos hdE]
    refine ⟨hch, ?_, ?_⟩
    · intro hrev
      have hE : (chosenReviews h).isEmpty = true := by
        rw [hch, hrev]
        rfl
      have h1 : scoreHotel kws model h = .ok none := by
        unfold scoreHotel
        rw [if_pos hE]
      refine ⟨h1, ?_⟩
      unfold scoreHotels
      rw [h1]
      rfl
    · intro hne
      have hRE : h.reviews.isEmpty = false := by
        cases hR : h.reviews with
        | nil => exact absurd hR hne
        | cons a l => rfl
      obtain ⟨q, hq⟩ := analyze_overall_num h.name h.reviews kws (model h.name) hnum
      unfold scoreHotel
      rw [hch, if_neg (by rw [hRE]; exact Bool.false_ne_true), hq]
      exact ⟨_, rfl, rfl, rfl, rfl⟩
  · have hch2 : chosenReviews (processHotel d h) = d := by
      unfold processHotel
      rw [if_neg hdE]
      unfold chosenReviews
      dsimp only [Option.getD]
      rw [if_neg hdE]
    rw [if_neg hdE]
    refine ⟨hch2, ?_, ?_⟩
    · intro hrev
      exact absurd (hrev ▸ rfl : d.isEmpty = true) hdE
    · intro hne2
      obtain ⟨q, hq⟩ := analyze_overall_num h.name d kws (model h.name) hnum
      unfold scoreHotel
      rw [hch2, processHotel_name, if_neg hdE, hq]
      exact ⟨_, rfl, rfl, rfl, rfl⟩

/-- C10 witness: the selection behavior at a concrete hotel whose detailed
fetch returned one review. -/
theorem c10_witness :
    chosenReviews (processHotel [detailedReview] hotelC1) = [detailedReview] ∧
    (([detailedReview] : List Review) = [] →
      scoreHotel [] oracleDown (processHotel [detailedReview] hotelC1) = .ok none ∧
      scoreHotels [] oracleDown [processHotel [detailedReview] hotelC1] = .ok []) ∧
    (([detailedReview] : List Review) ≠ [] →
      ∃ s, scoreHotel [] oracleDown (processHotel [detailedReview] hotelC1) =
          .ok (some s) ∧
        s.reviews = [detailedReview] ∧
        s.review_count = ([detailedReview] : List Review).length ∧
        s.llm_analysis = (analyze_hotel_reviews hotelC1.name [detailedReview] []
          (oracleDown hotelC1.name)).1) :=
  c10_scoring_review_selection [] oracleDown hotelC1 [detailedReview] rfl
    (by intro obj hobj; cases hobj)
